import Mathlib

/-!
Verification of the Proteosurf conversation orchestrator
(`backend/proteosurf/agent.py` and the WebSocket handler in
`backend/proteosurf/app.py`).

The orchestrator is embedded shallowly:

* JSON values (`JVal`) stand for Python dict/list/string values; tool
  arguments are JSON objects.
* A tool handler is a function `Args → Except String String`: `Except.error`
  models a raised Python exception, `Except.ok` a returned result string.
* The Model Gateway (`ProteoAgent._call_claude`) is a parameter
  `gateway : List Message → Except String ModelResponse`; `Except.error`
  models a raised `httpx` error (non-2xx status via `raise_for_status`, or
  a transport failure).
* `json.loads` (the Python standard library, not repository code) is a
  parameter `jparse : String → Option JVal`; `none` models a parse failure
  (`json.JSONDecodeError` / `TypeError`).
* The async generator `ProteoAgent.chat` becomes a pure function returning
  the ordered list of yielded events, the final persistent conversation,
  the list of message lists passed to each gateway call (in order), whether
  an exception propagated, and whether the round loop ended with `break`.
  Events yielded before a propagating exception are kept, events after the
  raise point are not, matching generator semantics.
-/

/-- JSON values, modelling the Python values produced by `json.loads` and
used for tool inputs (`block["input"]`). -/
inductive JVal : Type where
  | null : JVal
  | bool (b : Bool) : JVal
  | num (n : Int) : JVal
  | str (s : String) : JVal
  | arr (xs : List JVal) : JVal
  | obj (fields : List (String × JVal)) : JVal

/-- Tool arguments: a JSON object, as an association list (Python dicts have
unique keys; lookup takes the first match). -/
abbrev Args := List (String × JVal)

/-- Lookup of a key in a JSON object, modelling `key in d` / `d[key]`. -/
def lookupKey : List (String × JVal) → String → Option JVal
  | [], _ => none
  | (k, v) :: rest, key => if k = key then some v else lookupKey rest key

/-- Python string slicing `s[:n]`: the first `n` code points. -/
def pyTrunc (n : Nat) (s : String) : String := ⟨s.data.take n⟩

/-- Python `len` on a string: the number of code points. -/
def pyLen (s : String) : Nat := s.data.length

/-- Python `str.strip()`: drop leading and trailing whitespace. -/
def pyStrip (s : String) : String :=
  ⟨((s.data.dropWhile Char.isWhitespace).reverse.dropWhile Char.isWhitespace).reverse⟩

/-- Python `str.lower()` (ASCII case folding suffices for the sentinel). -/
def pyLower (s : String) : String := ⟨s.data.map Char.toLower⟩

/-- The ASCII apostrophe, written by code point. -/
def squote : String := String.singleton (Char.ofNat 39)

/-- One entry of `TOOL_REGISTRY`: handler, description and input schema.
The handler models the Python callable `spec["fn"]`: `Except.error msg`
stands for a raised exception whose `str` is `msg`. -/
structure ToolSpec : Type where
  fn : Args → Except String String
  description : String
  input_schema : JVal

/-- `TOOL_REGISTRY`: a mapping from tool name to its spec, as an
association list in registration order. -/
abbrev Registry := List (String × ToolSpec)

/-- `TOOL_REGISTRY.get(name)`: first entry with the given name, if any. -/
def registryGet : Registry → String → Option ToolSpec
  | [], _ => none
  | (k, v) :: rest, name => if k = name then some v else registryGet rest name

/-- Embedding of `_execute_tool(name, arguments)`: unknown tools yield the
string `Error: Unknown tool '<name>'`; a raising handler yields
`Error executing <name>: <message>`; otherwise the handler result is
returned. The function is total: no exception escapes it. -/
def _execute_tool (reg : Registry) (name : String) (arguments : Args) : String :=
  match registryGet reg name with
  | none => "Error: Unknown tool " ++ squote ++ name ++ squote
  | some spec =>
    match spec.fn arguments with
    | Except.ok result => result
    | Except.error exc => "Error executing " ++ name ++ ": " ++ exc

/-- Stream events yielded by `ProteoAgent.chat` (the dataclasses
`TextDelta`, `ToolUse`, `ImageResult`, `AudioResult`, `StreamEnd`). -/
inductive Event : Type where
  | textDelta (text : String) : Event
  | toolUse (tool_name : String) (tool_input : Args) (result : String) : Event
  | imageResult (base64_png : JVal) (caption : String) : Event
  | audioResult (base64_mp3 : JVal) (caption : String) : Event
  | streamEnd : Event

/-- Content blocks of a model response (`response["content"]`): text blocks,
tool-use blocks, and any other block type, which the round loop ignores. -/
inductive RespBlock : Type where
  | text (text : String) : RespBlock
  | toolUse (id : String) (name : String) (input : Args) : RespBlock
  | other (type_name : String) : RespBlock

/-- A model response: content blocks plus `stop_reason` (absent modelled as
`none`, matching `response.get("stop_reason")`). -/
structure ModelResponse : Type where
  content : List RespBlock
  stop_reason : Option String

/-- One `tool_result` block sent back to the model. -/
structure ToolResult : Type where
  tool_use_id : String
  content : String

/-- Message content: a plain string (user input, joined assistant text), the
raw assistant blocks, or a list of `tool_result` blocks. -/
inductive MsgContent : Type where
  | text (s : String) : MsgContent
  | blocks (bs : List RespBlock) : MsgContent
  | toolResults (rs : List ToolResult) : MsgContent

/-- One entry of the `messages` / `self.conversation` lists. -/
structure Message : Type where
  role : String
  content : MsgContent

/-- Cap applied to the result streamed to the consumer (`result_str[:2000]`). -/
def STREAM_CAP : Nat := 2000

/-- Cap applied to the result re-injected into the model (`result_str[:4000]`). -/
def MODEL_CAP : Nat := 4000

/-- The round budget (`max_rounds = 10`). -/
def MAX_ROUNDS : Nat := 10

/-- Artifact extraction after a tool call: parse the result string; when it
is a JSON object, emit an image event for an `image_base64` key and an audio
event for an `audio_base64` key; any other parse outcome yields no events. -/
def artifactEvents (jparse : String → Option JVal) (tool_name : String)
    (result_str : String) : List Event :=
  match jparse result_str with
  | some (JVal.obj fields) =>
    (match lookupKey fields "image_base64" with
     | some v => [Event.imageResult v (tool_name ++ " result")]
     | none => []) ++
    (match lookupKey fields "audio_base64" with
     | some v => [Event.audioResult v "Voice narration"]
     | none => [])
  | _ => []

/-- Result of processing the blocks of one model response: events yielded,
text parts collected, tool results gathered, and the `has_tool_use` flag. -/
structure RoundOut : Type where
  events : List Event
  text_parts : List String
  tool_results : List ToolResult
  has_tool_use : Bool

/-- Processing of a single content block in the round loop body. A text
block yields a `TextDelta` and collects its text. A tool-use block yields a
`ToolUse` with empty result, executes the tool, yields any artifact events,
yields a second `ToolUse` with the result truncated to `STREAM_CAP`, and
records a `tool_result` truncated to `MODEL_CAP`. Other blocks are ignored. -/
def processBlock (reg : Registry) (jparse : String → Option JVal)
    (block : RespBlock) : RoundOut :=
  match block with
  | RespBlock.text s => ⟨[Event.textDelta s], [s], [], false⟩
  | RespBlock.toolUse id name input =>
    let result_str := _execute_tool reg name input
    ⟨Event.toolUse name input "" ::
       (artifactEvents jparse name result_str ++
        [Event.toolUse name input (pyTrunc STREAM_CAP result_str)]),
     [], [⟨id, pyTrunc MODEL_CAP result_str⟩], true⟩
  | RespBlock.other _ => ⟨[], [], [], false⟩

/-- Processing of all content blocks of a response, in order. -/
def processBlocks (reg : Registry) (jparse : String → Option JVal) :
    List RespBlock → RoundOut
  | [] => ⟨[], [], [], false⟩
  | b :: rest =>
    let h := processBlock reg jparse b
    let t := processBlocks reg jparse rest
    ⟨h.events ++ t.events, h.text_parts ++ t.text_parts,
     h.tool_results ++ t.tool_results, h.has_tool_use || t.has_tool_use⟩

/-- Python `"\n".join(parts)`. -/
def joinNL : List String → String
  | [] => ""
  | [s] => s
  | s :: rest => s ++ "\n" ++ joinNL rest

/-- Full observable outcome of one `chat` invocation: the yielded events,
the final `self.conversation`, the message list passed to each gateway call
in order, the propagated exception (if any), and whether the round loop
ended with its `break` (as opposed to budget exhaustion or an exception). -/
structure ChatResult : Type where
  events : List Event
  conversation : List Message
  gatewayArgs : List (List Message)
  raised : Option String
  naturalBreak : Bool

/-- The round loop of `ProteoAgent.chat` (`for _ in range(max_rounds)`),
with remaining fuel, the local `messages` list and `self.conversation`.
A gateway error aborts with the exception recorded; the break condition is
`not has_tool_use or stop_reason == "end_turn"`, on which the joined text
parts are appended to the conversation; otherwise the assistant blocks and
the tool results are appended to `messages` and the loop continues. -/
def chatRounds (reg : Registry) (jparse : String → Option JVal)
    (gateway : List Message → Except String ModelResponse) :
    Nat → List Message → List Message → ChatResult
  | 0, _, conv => ⟨[], conv, [], none, false⟩
  | fuel + 1, messages, conv =>
    match gateway messages with
    | Except.error e => ⟨[], conv, [messages], some e, false⟩
    | Except.ok response =>
      let r := processBlocks reg jparse response.content
      if r.has_tool_use = false ∨ response.stop_reason = some "end_turn" then
        ⟨r.events,
         conv ++ [⟨"assistant", MsgContent.text (joinNL r.text_parts)⟩],
         [messages], none, true⟩
      else
        let messages2 := (messages ++ [⟨"assistant", MsgContent.blocks response.content⟩])
          ++ [⟨"user", MsgContent.toolResults r.tool_results⟩]
        let rest := chatRounds reg jparse gateway fuel messages2 conv
        ⟨r.events ++ rest.events, rest.conversation, messages :: rest.gatewayArgs,
         rest.raised, rest.naturalBreak⟩

/-- Embedding of `ProteoAgent.chat(user_message)`: append the user message
to the conversation, snapshot it as `messages`, run the round loop, and —
unless an exception propagated — yield the terminal `StreamEnd`. -/
def ProteoAgent.chat (reg : Registry) (jparse : String → Option JVal)
    (gateway : List Message → Except String ModelResponse)
    (conversation : List Message) (user_message : String) : ChatResult :=
  let conv1 := conversation ++ [⟨"user", MsgContent.text user_message⟩]
  let r := chatRounds reg jparse gateway MAX_ROUNDS conv1 conv1
  match r.raised with
  | some e => ⟨r.events, r.conversation, r.gatewayArgs, some e, r.naturalBreak⟩
  | none => ⟨r.events ++ [Event.streamEnd], r.conversation, r.gatewayArgs, none,
             r.naturalBreak⟩

/-- Embedding of `ProteoAgent.reset`: `self.conversation.clear()`. -/
def ProteoAgent.reset (_conversation : List Message) : List Message := []

/-- Outward WebSocket records sent by `chat_ws` in `app.py`. -/
inductive WsEvent : Type where
  | system (text : String) : WsEvent
  | text (text : String) : WsEvent
  | tool (tool_name : String) (tool_input : Args) (result : String) : WsEvent
  | image (base64 : JVal) (caption : String) : WsEvent
  | audio (base64 : JVal) (caption : String) : WsEvent
  | done : WsEvent
  | error (text : String) : WsEvent

/-- Translation of one stream event into the JSON record `chat_ws` sends. -/
def eventToWs : Event → WsEvent
  | Event.textDelta t => WsEvent.text t
  | Event.toolUse n i r => WsEvent.tool n i r
  | Event.imageResult b c => WsEvent.image b c
  | Event.audioResult b c => WsEvent.audio b c
  | Event.streamEnd => WsEvent.done

/-- Observable outcome of `chat_ws` handling one incoming message: the new
session conversation, the records sent, and the number of gateway calls. -/
structure WsStep : Type where
  conversation : List Message
  sent : List WsEvent
  gatewayCalls : Nat

/-- One iteration of the `chat_ws` receive loop in `app.py`: an empty
message is skipped; the `/reset` sentinel (after strip and lowercase)
resets the agent and acknowledges with a system record, with no model
call; otherwise the chat events are forwarded, and a propagating
exception is reported as an error record after the events already sent. -/
def handleWs (reg : Registry) (jparse : String → Option JVal)
    (gateway : List Message → Except String ModelResponse)
    (conversation : List Message) (user_msg : String) : WsStep :=
  if user_msg = "" then ⟨conversation, [], 0⟩
  else if pyLower (pyStrip user_msg) = "/reset" then
    ⟨ProteoAgent.reset conversation, [WsEvent.system "Conversation reset."], 0⟩
  else
    let r := ProteoAgent.chat reg jparse gateway conversation user_msg
    match r.raised with
    | some e => ⟨r.conversation, r.events.map eventToWs ++ [WsEvent.error e],
                 r.gatewayArgs.length⟩
    | none => ⟨r.conversation, r.events.map eventToWs, r.gatewayArgs.length⟩

/-- Test for the terminal stream event. -/
def isEnd : Event → Bool
  | Event.streamEnd => true
  | _ => false

/-- Number of `StreamEnd` events in a stream. -/
def countEnd (evs : List Event) : Nat := evs.countP isEnd

/-- Test for a `ToolUse` stream event. -/
def isToolUseEvent : Event → Bool
  | Event.toolUse _ _ _ => true
  | _ => false

/-- Test for a tool-use content block. -/
def isToolUseBlock : RespBlock → Bool
  | RespBlock.toolUse _ _ _ => true
  | _ => false

/-- The ids of the tool-use blocks of a response, in order. -/
def toolUseIds : List RespBlock → List String
  | [] => []
  | RespBlock.toolUse id _ _ :: rest => id :: toolUseIds rest
  | _ :: rest => toolUseIds rest

/-- Relation between the message lists of two consecutive gateway calls:
the first call succeeded with some response, the second call extends the
first message list by exactly the assistant blocks and a single user
message holding the tool results, whose ids are exactly the ids of the
tool-use blocks of the response, in order — hence each request id is
answered exactly as often as it was requested. -/
def matchedOutcomes (gateway : List Message → Except String ModelResponse)
    (ms ms2 : List Message) : Prop :=
  ∃ resp rs,
    gateway ms = Except.ok resp ∧
    ms2 = ms ++ [⟨"assistant", MsgContent.blocks resp.content⟩,
                 ⟨"user", MsgContent.toolResults rs⟩] ∧
    rs.map ToolResult.tool_use_id = toolUseIds resp.content ∧
    ∀ id, rs.countP (fun r => r.tool_use_id == id) = (toolUseIds resp.content).count id

/-- Boolean test that `pre` is a prefix of `s` (code-point-wise), used to
state the "begins with" wording of the specification. -/
def strStarts (pre s : String) : Bool := List.isPrefixOf pre.data s.data

/-- Parse function that always fails, for concrete runs whose tool results
are not JSON. -/
def noParse : String → Option JVal := fun _ => none

/-- A gateway that always fails, modelling a non-2xx completion-service
response raised by `raise_for_status`. -/
def gwFail : List Message → Except String ModelResponse :=
  fun _ => Except.error "HTTP 500"

/-- A gateway that always answers with pure text and a natural stop. -/
def gwText : List Message → Except String ModelResponse :=
  fun _ => Except.ok ⟨[RespBlock.text "hello back"], some "end_turn"⟩

/-- A gateway that always requests one tool call and never signals natural
completion. -/
def gwLoop : List Message → Except String ModelResponse :=
  fun _ => Except.ok ⟨[RespBlock.toolUse "id1" "lookup" []], some "tool_use"⟩

/-- A tool spec whose handler always raises. -/
def cErrSpec : ToolSpec := ⟨fun _ => Except.error "boom", "always fails", JVal.null⟩

/-- A one-tool registry holding the always-raising handler. -/
def cErrReg : Registry := [("t1", cErrSpec)]

/-! Helper lemmas about the loop body. -/

/-- Artifact extraction yields only image/audio events: every member
fails both the `isEnd` and the `isToolUseEvent` tests. -/
theorem artifactEvents_mem (jparse : String → Option JVal) (n s : String) :
    ∀ e ∈ artifactEvents jparse n s, isEnd e = false ∧ isToolUseEvent e = false := by
  intro e he
  unfold artifactEvents at he
  split at he
  case h_1 x fields heq =>
    rcases List.mem_append.1 he with h | h
    · cases hi : lookupKey fields "image_base64" <;> simp [hi] at h
      subst h
      simp [isEnd, isToolUseEvent]
    · cases ha : lookupKey fields "audio_base64" <;> simp [ha] at h
      subst h
      simp [isEnd, isToolUseEvent]
  case h_2 => simp at he

/-- Truncation bound: the first `n` code points number at most `n`. -/
theorem pyLen_pyTrunc_le (n : Nat) (s : String) : pyLen (pyTrunc n s) ≤ n := by
  simp [pyLen, pyTrunc]

/-- The loop body never yields a `StreamEnd` for a single block. -/
theorem processBlock_countEnd (reg : Registry) (jparse : String → Option JVal)
    (b : RespBlock) : countEnd (processBlock reg jparse b).events = 0 := by
  cases b with
  | text s => simp [processBlock, countEnd, isEnd]
  | toolUse id name input =>
    simp only [processBlock, countEnd, List.countP_cons, List.countP_append,
      List.countP_nil, isEnd]
    rw [List.countP_eq_zero.2 (fun e he => by
      simpa using (artifactEvents_mem jparse name _ e he).1)]
    simp
  | other t => simp [processBlock, countEnd]

/-- The loop body never yields a `StreamEnd` across a whole response. -/
theorem processBlocks_countEnd (reg : Registry) (jparse : String → Option JVal) :
    ∀ blocks, countEnd (processBlocks reg jparse blocks).events = 0
  | [] => by simp [processBlocks, countEnd]
  | b :: rest => by
    have h1 := processBlock_countEnd reg jparse b
    have h2 := processBlocks_countEnd reg jparse rest
    simp only [countEnd] at h1 h2 ⊢
    simp only [processBlocks, List.countP_append]
    rw [h1, h2]

/-- The round loop itself never yields a `StreamEnd`; only the epilogue of
`chat` does. -/
theorem chatRounds_countEnd (reg : Registry) (jparse : String → Option JVal)
    (gateway : List Message → Except String ModelResponse) :
    ∀ fuel ms conv, countEnd (chatRounds reg jparse gateway fuel ms conv).events = 0
  | 0, ms, conv => by simp [chatRounds, countEnd]
  | fuel + 1, ms, conv => by
    simp only [chatRounds]
    cases hgw : gateway ms with
    | error e => simp [countEnd]
    | ok response =>
      simp only
      split
      · exact processBlocks_countEnd reg jparse response.content
      · have h1 := processBlocks_countEnd reg jparse response.content
        have h2 := chatRounds_countEnd reg jparse gateway fuel
          ((ms ++ [⟨"assistant", MsgContent.blocks response.content⟩])
            ++ [⟨"user", MsgContent.toolResults
                  (processBlocks reg jparse response.content).tool_results⟩]) conv
        simp only [countEnd] at h1 h2 ⊢
        simp only [List.countP_append]
        rw [h1, h2]

/-- Tool results gathered from a response carry, in order, exactly the ids
of its tool-use blocks. -/
theorem processBlocks_ids (reg : Registry) (jparse : String → Option JVal) :
    ∀ blocks, ((processBlocks reg jparse blocks).tool_results).map ToolResult.tool_use_id
      = toolUseIds blocks
  | [] => by simp [processBlocks, toolUseIds]
  | b :: rest => by
    have ih := processBlocks_ids reg jparse rest
    cases b <;> simp [processBlocks, processBlock, toolUseIds, ih]

/-- The `has_tool_use` flag is set exactly when some block is a tool use. -/
theorem processBlocks_has_tool_use (reg : Registry) (jparse : String → Option JVal) :
    ∀ blocks, (processBlocks reg jparse blocks).has_tool_use = blocks.any isToolUseBlock
  | [] => by simp [processBlocks]
  | b :: rest => by
    have ih := processBlocks_has_tool_use reg jparse rest
    cases b <;> simp [processBlocks, processBlock, isToolUseBlock, ih]

/-- The gateway-call transcript of the round loop is empty or starts with
the entry message list. -/
theorem chatRounds_gatewayArgs_shape (reg : Registry) (jparse : String → Option JVal)
    (gateway : List Message → Except String ModelResponse) :
    ∀ fuel ms conv, (chatRounds reg jparse gateway fuel ms conv).gatewayArgs = [] ∨
      ∃ t, (chatRounds reg jparse gateway fuel ms conv).gatewayArgs = ms :: t := by
  intro fuel ms conv
  cases fuel with
  | zero => left; simp [chatRounds]
  | succ fuel =>
    right
    simp only [chatRounds]
    cases hgw : gateway ms with
    | error e => exact ⟨[], rfl⟩
    | ok response =>
      simp only
      split
      · exact ⟨[], rfl⟩
      · exact ⟨_, rfl⟩

/-- The round loop touches the persistent conversation only at its natural
break, where it appends a single assistant entry holding the plain string
joining the text parts of the response delivered by the last gateway call. -/
theorem chatRounds_conversation (reg : Registry) (jparse : String → Option JVal)
    (gateway : List Message → Except String ModelResponse) :
    ∀ fuel ms conv,
      ((chatRounds reg jparse gateway fuel ms conv).naturalBreak = true →
        ∃ ms2 resp, gateway ms2 = Except.ok resp ∧
          (chatRounds reg jparse gateway fuel ms conv).conversation
            = conv ++ [⟨"assistant", MsgContent.text
                (joinNL (processBlocks reg jparse resp.content).text_parts)⟩]) ∧
      ((chatRounds reg jparse gateway fuel ms conv).naturalBreak = false →
        (chatRounds reg jparse gateway fuel ms conv).conversation = conv)
  | 0, ms, conv => by simp [chatRounds]
  | fuel + 1, ms, conv => by
    simp only [chatRounds]
    cases hgw : gateway ms with
    | error e => simp
    | ok response =>
      simp only
      split
      · exact ⟨fun _ => ⟨ms, response, hgw, rfl⟩, fun h => by simp at h⟩
      · exact chatRounds_conversation reg jparse gateway fuel _ conv

/-- Consecutive gateway calls of the round loop are linked by the
matched-outcomes relation: the later call extends the earlier message list
by the assistant blocks and one user message of fully matched tool results. -/
theorem chatRounds_chain (reg : Registry) (jparse : String → Option JVal)
    (gateway : List Message → Except String ModelResponse) :
    ∀ fuel ms conv,
      List.Chain' (matchedOutcomes gateway)
        (chatRounds reg jparse gateway fuel ms conv).gatewayArgs
  | 0, ms, conv => by simp [chatRounds]
  | fuel + 1, ms, conv => by
    simp only [chatRounds]
    cases hgw : gateway ms with
    | error e => simp
    | ok response =>
      simp only
      split
      · simp
      · rw [List.chain'_cons']
        refine ⟨?_, chatRounds_chain reg jparse gateway fuel _ conv⟩
        intro y hy
        rcases chatRounds_gatewayArgs_shape reg jparse gateway fuel
            ((ms ++ [⟨"assistant", MsgContent.blocks response.content⟩])
              ++ [⟨"user", MsgContent.toolResults
                    (processBlocks reg jparse response.content).tool_results⟩]) conv with
          hsh | ⟨t, hsh⟩
        · rw [hsh] at hy
          simp at hy
        · rw [hsh] at hy
          simp at hy
          subst hy
          refine ⟨response, (processBlocks reg jparse response.content).tool_results,
            hgw, by simp, processBlocks_ids reg jparse response.content, ?_⟩
          intro id
          have hm := processBlocks_ids reg jparse response.content
          calc ((processBlocks reg jparse response.content).tool_results).countP
                (fun r => r.tool_use_id == id)
              = (((processBlocks reg jparse response.content).tool_results).map
                  ToolResult.tool_use_id).countP (fun x => x == id) := by
                rw [List.countP_map]; rfl
            _ = (toolUseIds response.content).count id := by
                rw [hm, List.count]

/-- Under a gateway whose every response requests a tool and never signals
natural completion, the round loop consumes all its fuel, performing one
gateway call per unit of fuel, and no exception propagates. -/
theorem chatRounds_full (reg : Registry) (jparse : String → Option JVal)
    (gateway : List Message → Except String ModelResponse)
    (H : ∀ ms, ∃ resp, gateway ms = Except.ok resp ∧
        resp.content.any isToolUseBlock = true ∧
        resp.stop_reason ≠ some "end_turn") :
    ∀ fuel ms conv,
      (chatRounds reg jparse gateway fuel ms conv).gatewayArgs.length = fuel ∧
      (chatRounds reg jparse gateway fuel ms conv).raised = none
  | 0, ms, conv => by simp [chatRounds]
  | fuel + 1, ms, conv => by
    obtain ⟨resp, hgw, htool, hstop⟩ := H ms
    have hflag : (processBlocks reg jparse resp.content).has_tool_use = true := by
      rw [processBlocks_has_tool_use]; exact htool
    have hcond : ¬((processBlocks reg jparse resp.content).has_tool_use = false ∨
        resp.stop_reason = some "end_turn") := by
      rw [hflag]; simp [hstop]
    have ih := chatRounds_full reg jparse gateway H fuel
      ((ms ++ [⟨"assistant", MsgContent.blocks resp.content⟩])
        ++ [⟨"user", MsgContent.toolResults
              (processBlocks reg jparse resp.content).tool_results⟩]) conv
    simp only [chatRounds, hgw]
    rw [if_neg hcond]
    simp only [List.length_cons]
    exact ⟨by rw [ih.1], ih.2⟩

/-- Normal form of `chat`: the round loop result, with the terminal event
appended exactly when no exception propagated. -/
theorem chat_eq (reg : Registry) (jparse : String → Option JVal)
    (gateway : List Message → Except String ModelResponse)
    (conv : List Message) (msg : String) :
    ProteoAgent.chat reg jparse gateway conv msg =
      ⟨(chatRounds reg jparse gateway MAX_ROUNDS
          (conv ++ [⟨"user", MsgContent.text msg⟩])
          (conv ++ [⟨"user", MsgContent.text msg⟩])).events ++
        (if (chatRounds reg jparse gateway MAX_ROUNDS
              (conv ++ [⟨"user", MsgContent.text msg⟩])
              (conv ++ [⟨"user", MsgContent.text msg⟩])).raised = none
         then [Event.streamEnd] else []),
       (chatRounds reg jparse gateway MAX_ROUNDS
          (conv ++ [⟨"user", MsgContent.text msg⟩])
          (conv ++ [⟨"user", MsgContent.text msg⟩])).conversation,
       (chatRounds reg jparse gateway MAX_ROUNDS
          (conv ++ [⟨"user", MsgContent.text msg⟩])
          (conv ++ [⟨"user", MsgContent.text msg⟩])).gatewayArgs,
       (chatRounds reg jparse gateway MAX_ROUNDS
          (conv ++ [⟨"user", MsgContent.text msg⟩])
          (conv ++ [⟨"user", MsgContent.text msg⟩])).raised,
       (chatRounds reg jparse gateway MAX_ROUNDS
          (conv ++ [⟨"user", MsgContent.text msg⟩])
          (conv ++ [⟨"user", MsgContent.text msg⟩])).naturalBreak⟩ := by
  unfold ProteoAgent.chat
  cases h : (chatRounds reg jparse gateway MAX_ROUNDS
      (conv ++ [⟨"user", MsgContent.text msg⟩])
      (conv ++ [⟨"user", MsgContent.text msg⟩])).raised with
  | none => simp [h]
  | some e => simp [h]

/-- Artifact events contribute no `ToolUse` event to a filtered stream. -/
theorem artifactEvents_filter (jparse : String → Option JVal) (n s : String) :
    (artifactEvents jparse n s).filter isToolUseEvent = [] :=
  List.filter_eq_nil_iff.2 (fun e he => by
    simp [(artifactEvents_mem jparse n s e he).2])

/-- Every result string carried by a `ToolUse` event of a round is either
the empty preview or a `STREAM_CAP`-truncation of some raw result. -/
theorem processBlocks_toolUse_res (reg : Registry) (jparse : String → Option JVal) :
    ∀ blocks, ∀ n i res,
      Event.toolUse n i res ∈ (processBlocks reg jparse blocks).events →
      res = "" ∨ ∃ raw, res = pyTrunc STREAM_CAP raw
  | [], n, i, res => by simp [processBlocks]
  | b :: rest, n, i, res => by
    intro hmem
    simp only [processBlocks, List.mem_append] at hmem
    rcases hmem with hmem | hmem
    · cases b with
      | text s => simp [processBlock] at hmem
      | toolUse id name input =>
        simp only [processBlock, List.mem_cons, List.mem_append] at hmem
        rcases hmem with h | h | h
        · injection h with h1 h2 h3
          exact Or.inl h3
        · exact absurd ((artifactEvents_mem jparse name _ _ h).2)
            (by simp [isToolUseEvent])
        · simp at h
          right
          exact ⟨_, h.2.2⟩
      | other t => simp [processBlock] at hmem
    · exact processBlocks_toolUse_res reg jparse rest n i res hmem

/-- Every tool result gathered in a round is a `MODEL_CAP`-truncation of
some raw result. -/
theorem processBlocks_tool_results_mem (reg : Registry) (jparse : String → Option JVal) :
    ∀ blocks, ∀ tr, tr ∈ (processBlocks reg jparse blocks).tool_results →
      ∃ id raw, tr = ⟨id, pyTrunc MODEL_CAP raw⟩
  | [], tr => by simp [processBlocks]
  | b :: rest, tr => by
    intro hmem
    simp only [processBlocks, List.mem_append] at hmem
    rcases hmem with hmem | hmem
    · cases b with
      | text s => simp [processBlock] at hmem
      | toolUse id name input =>
        simp only [processBlock, List.mem_singleton] at hmem
        exact ⟨id, _, hmem⟩
      | other t => simp [processBlock] at hmem
    · exact processBlocks_tool_results_mem reg jparse rest tr hmem

/-- C3: for every registered tool name and arguments mapping, if the
handler raises, `_execute_tool` returns the textual result
`Error executing <name>: <message>` — a string beginning with
`Error executing` — and never propagates the exception (the dispatcher is
a total function into strings, so the error is returned, not thrown). -/
theorem c3_handler_error_isolated (reg : Registry) (name : String) (args : Args)
    (spec : ToolSpec) (msg : String)
    (hreg : registryGet reg name = some spec)
    (hfail : spec.fn args = Except.error msg) :
    _execute_tool reg name args = "Error executing " ++ name ++ ": " ++ msg ∧
    ∃ rest, _execute_tool reg name args = "Error executing " ++ rest := by
  unfold _execute_tool
  rw [hreg]
  dsimp only
  rw [hfail]
  dsimp only
  exact ⟨rfl, ⟨name ++ (": " ++ msg), by rw [String.append_assoc, String.append_assoc]⟩⟩

/-- Witness for C3: the always-raising handler in `cErrReg` yields the
textual error result. -/
theorem c3_witness :
    _execute_tool cErrReg "t1" [] = "Error executing " ++ "t1" ++ ": " ++ "boom" ∧
    ∃ rest, _execute_tool cErrReg "t1" [] = "Error executing " ++ rest :=
  c3_handler_error_isolated cErrReg "t1" [] cErrSpec "boom" rfl rfl

/-- C4 fails as stated: dispatching the unregistered name `nope` returns
`Error: Unknown tool 'nope'`, which does not begin with `Unknown tool`. -/
theorem c4_counterexample :
    _execute_tool [] "nope" [] = "Error: Unknown tool " ++ squote ++ "nope" ++ squote ∧
    strStarts "Unknown tool" (_execute_tool [] "nope" []) = false :=
  ⟨rfl, by decide⟩

/-- C4 (amended): for every unregistered name and arguments mapping, the
dispatcher returns `Error: Unknown tool '<name>'` — a string beginning with
`Error:` and containing `Unknown tool '<name>'` — without raising (the
dispatcher is a total function into strings). -/
theorem c4_unknown_tool (reg : Registry) (name : String) (args : Args)
    (habs : registryGet reg name = none) :
    _execute_tool reg name args = "Error: Unknown tool " ++ squote ++ name ++ squote ∧
    ∃ rest, _execute_tool reg name args = "Error:" ++ rest ∧
      rest = " Unknown tool " ++ squote ++ name ++ squote := by
  unfold _execute_tool
  rw [habs]
  refine ⟨rfl, ⟨" Unknown tool " ++ squote ++ name ++ squote, ?_, rfl⟩⟩
  have hsplit : ("Error: Unknown tool " : String) = "Error:" ++ " Unknown tool " := rfl
  rw [hsplit, String.append_assoc "Error:" " Unknown tool " squote,
    String.append_assoc "Error:" (" Unknown tool " ++ squote) name,
    String.append_assoc "Error:" (" Unknown tool " ++ squote ++ name) squote]

/-- Witness for C4 (amended) at the concrete unknown name `nope`. -/
theorem c4_witness :
    _execute_tool [] "nope" [] = "Error: Unknown tool " ++ squote ++ "nope" ++ squote ∧
    ∃ rest, _execute_tool [] "nope" [] = "Error:" ++ rest ∧
      rest = " Unknown tool " ++ squote ++ "nope" ++ squote :=
  c4_unknown_tool [] "nope" [] rfl

/-- C6: for every tool-request block of a model response, the event stream
of the round contains exactly two `ToolUse` events for that block, in block
order: first one with the block's name and arguments and an empty result
(yielded before the tool is dispatched), then one with the same name and
arguments carrying the `STREAM_CAP`-truncated result (yielded after the
tool completes); the `ToolUse` events of the round are nothing but these
pairs, concatenated in block order. -/
theorem c6_two_phase_tool_events (reg : Registry) (jparse : String → Option JVal)
    (blocks : List RespBlock) :
    ((processBlocks reg jparse blocks).events.filter isToolUseEvent)
      = (blocks.filterMap fun b => match b with
          | RespBlock.toolUse _ name input => some
              [Event.toolUse name input "",
               Event.toolUse name input
                 (pyTrunc STREAM_CAP (_execute_tool reg name input))]
          | _ => none).flatten := by
  induction blocks with
  | nil => simp [processBlocks]
  | cons b rest ih =>
    cases b with
    | text s =>
      simp [processBlocks, processBlock, List.filter_append, isToolUseEvent, ih]
    | toolUse id name input =>
      simp only [processBlocks, processBlock, List.filterMap_cons, List.filter_append,
        List.filter_cons, List.flatten]
      rw [artifactEvents_filter]
      simp [isToolUseEvent, ih]
    | other t =>
      simp [processBlocks, processBlock, List.filter_append, ih]

/-- C7: every result text streamed in a `ToolUse` event of a round has
length at most `STREAM_CAP` (2000), every `tool_result` text re-injected
into the model has length at most `MODEL_CAP` (4000), both are obtained by
the deterministic truncation `pyTrunc` of the same raw dispatcher result,
and the two caps are distinct, independent constants. -/
theorem c7_truncation_caps (reg : Registry) (jparse : String → Option JVal)
    (blocks : List RespBlock) :
    (∀ n i res, Event.toolUse n i res ∈ (processBlocks reg jparse blocks).events →
      pyLen res ≤ STREAM_CAP) ∧
    (∀ tr, tr ∈ (processBlocks reg jparse blocks).tool_results →
      pyLen tr.content ≤ MODEL_CAP) ∧
    (∀ id name input,
      (processBlock reg jparse (RespBlock.toolUse id name input)).tool_results
        = [⟨id, pyTrunc MODEL_CAP (_execute_tool reg name input)⟩]) ∧
    STREAM_CAP ≠ MODEL_CAP := by
  refine ⟨?_, ?_, fun id name input => rfl, by decide⟩
  · intro n i res hmem
    rcases processBlocks_toolUse_res reg jparse blocks n i res hmem with h | ⟨raw, h⟩
    · subst h; simp [pyLen]
    · subst h; exact pyLen_pyTrunc_le STREAM_CAP raw
  · intro tr hmem
    obtain ⟨id, raw, h⟩ := processBlocks_tool_results_mem reg jparse blocks tr hmem
    subst h
    exact pyLen_pyTrunc_le MODEL_CAP raw

/-- Witness for C7: a round with one tool-use block for an unregistered
tool; the streamed preview of the second event and the recorded tool result
respect their caps. -/
theorem c7_witness :
    (∀ n i res, Event.toolUse n i res
        ∈ (processBlocks [] noParse [RespBlock.toolUse "w1" "t" []]).events →
      pyLen res ≤ STREAM_CAP) ∧
    (∀ tr, tr ∈ (processBlocks [] noParse [RespBlock.toolUse "w1" "t" []]).tool_results →
      pyLen tr.content ≤ MODEL_CAP) :=
  ⟨(c7_truncation_caps [] noParse [RespBlock.toolUse "w1" "t" []]).1,
   (c7_truncation_caps [] noParse [RespBlock.toolUse "w1" "t" []]).2.1⟩

/-- C8: when the dispatcher result parses as a JSON object with an
`image_base64` (resp. `audio_base64`) key, the corresponding artifact event
carrying that payload is emitted, in addition to the textual tool-outcome
event, which is always present; when the result does not parse, parses to a
non-object, or parses to an object with neither key, no artifact event is
emitted and processing of the block still succeeds with its two `ToolUse`
events. -/
theorem c8_artifact_extraction (reg : Registry) (jparse : String → Option JVal)
    (tool_name result_str : String) :
    (∀ fields v, jparse result_str = some (JVal.obj fields) →
      lookupKey fields "image_base64" = some v →
      Event.imageResult v (tool_name ++ " result")
        ∈ artifactEvents jparse tool_name result_str) ∧
    (∀ fields v, jparse result_str = some (JVal.obj fields) →
      lookupKey fields "audio_base64" = some v →
      Event.audioResult v "Voice narration"
        ∈ artifactEvents jparse tool_name result_str) ∧
    (jparse result_str = none → artifactEvents jparse tool_name result_str = []) ∧
    (∀ j, jparse result_str = some j → (∀ fields, j ≠ JVal.obj fields) →
      artifactEvents jparse tool_name result_str = []) ∧
    (∀ fields, jparse result_str = some (JVal.obj fields) →
      lookupKey fields "image_base64" = none →
      lookupKey fields "audio_base64" = none →
      artifactEvents jparse tool_name result_str = []) ∧
    (∀ id input, result_str = _execute_tool reg tool_name input →
      (processBlock reg jparse (RespBlock.toolUse id tool_name input)).events
        = Event.toolUse tool_name input "" ::
            (artifactEvents jparse tool_name result_str ++
             [Event.toolUse tool_name input (pyTrunc STREAM_CAP result_str)])) := by
  refine ⟨?_, ?_, ?_, ?_, ?_, ?_⟩
  · intro fields v hp hk
    unfold artifactEvents
    rw [hp]
    dsimp only
    rw [hk]
    simp
  · intro fields v hp hk
    unfold artifactEvents
    rw [hp]
    dsimp only
    rw [hk]
    cases lookupKey fields "image_base64" <;> simp
  · intro hp
    unfold artifactEvents
    rw [hp]
  · intro j hp hne
    unfold artifactEvents
    rw [hp]
    cases j with
    | obj fields => exact absurd rfl (hne fields)
    | null => rfl
    | bool b => rfl
    | num n => rfl
    | str s => rfl
    | arr xs => rfl
  · intro fields hp hki hka
    unfold artifactEvents
    rw [hp]
    dsimp only
    rw [hki, hka]
    rfl
  · intro id input hres
    subst hres
    rfl

/-- Witness for C8: a parse that returns an object carrying both artifact
keys produces both artifact events alongside the tool-outcome events. -/
theorem c8_witness :
    (Event.imageResult (JVal.str "PNG") ("snap" ++ " result")
        ∈ artifactEvents
            (fun _ => some (JVal.obj [("image_base64", JVal.str "PNG"),
                                      ("audio_base64", JVal.str "MP3")]))
            "snap" "ignored") ∧
    (Event.audioResult (JVal.str "MP3") "Voice narration"
        ∈ artifactEvents
            (fun _ => some (JVal.obj [("image_base64", JVal.str "PNG"),
                                      ("audio_base64", JVal.str "MP3")]))
            "snap" "ignored") ∧
    artifactEvents noParse "snap" "not json" = [] :=
  ⟨(c8_artifact_extraction [] (fun _ => some (JVal.obj [("image_base64", JVal.str "PNG"),
      ("audio_base64", JVal.str "MP3")])) "snap" "ignored").1
      [("image_base64", JVal.str "PNG"), ("audio_base64", JVal.str "MP3")]
      (JVal.str "PNG") rfl rfl,
   (c8_artifact_extraction [] (fun _ => some (JVal.obj [("image_base64", JVal.str "PNG"),
      ("audio_base64", JVal.str "MP3")])) "snap" "ignored").2.1
      [("image_base64", JVal.str "PNG"), ("audio_base64", JVal.str "MP3")]
      (JVal.str "MP3") rfl rfl,
   (c8_artifact_extraction [] noParse "snap" "not json").2.2.1 rfl⟩

/-- C1 fails as stated: at the concrete fatal-gateway-error run (the
completion service answers non-2xx, modelled by `gwFail`), the event
stream of `chat` contains zero `End` events — the exception propagates
before the terminal `StreamEnd` is yielded. -/
theorem c1_counterexample :
    countEnd (ProteoAgent.chat [] noParse gwFail [] "hi").events = 0 ∧
    (ProteoAgent.chat [] noParse gwFail [] "hi").raised = some "HTTP 500" :=
  ⟨rfl, rfl⟩

/-- C1 (amended): every invocation of `chat` emits exactly one terminal
`End` event, as the last event of the stream, on normal completion and on
round-budget exhaustion; on a fatal Model Gateway error, however, the
exception propagates and zero `End` events are emitted. -/
theorem c1_end_exactly_once (reg : Registry) (jparse : String → Option JVal)
    (gateway : List Message → Except String ModelResponse)
    (conv : List Message) (msg : String) :
    ((ProteoAgent.chat reg jparse gateway conv msg).raised = none →
      countEnd (ProteoAgent.chat reg jparse gateway conv msg).events = 1 ∧
      ∃ evs, (ProteoAgent.chat reg jparse gateway conv msg).events
        = evs ++ [Event.streamEnd]) ∧
    (∀ e, (ProteoAgent.chat reg jparse gateway conv msg).raised = some e →
      countEnd (ProteoAgent.chat reg jparse gateway conv msg).events = 0) := by
  have hc := chatRounds_countEnd reg jparse gateway MAX_ROUNDS
    (conv ++ [⟨"user", MsgContent.text msg⟩]) (conv ++ [⟨"user", MsgContent.text msg⟩])
  rw [chat_eq]
  dsimp only
  constructor
  · intro hr
    rw [if_pos hr]
    constructor
    · simp only [countEnd, List.countP_append] at hc ⊢
      rw [hc]
      rfl
    · exact ⟨_, rfl⟩
  · intro e hr
    rw [if_neg (by simp [hr])]
    simpa [countEnd] using hc

/-- Witness for C1 (amended): a normal text-only completion raises nothing
and its stream ends with exactly one `End` event. -/
theorem c1_witness :
    countEnd (ProteoAgent.chat [] noParse gwText [] "hello").events = 1 ∧
    ∃ evs, (ProteoAgent.chat [] noParse gwText [] "hello").events
      = evs ++ [Event.streamEnd] :=
  (c1_end_exactly_once [] noParse gwText [] "hello").1 rfl

/-- C2: along every run of `chat`, consecutive gateway calls are linked by
the matched-outcomes relation — the message list of the next call extends
that of the previous call by the assistant blocks and one user message
holding one `tool_result` per `tool_use` block of the response, matched by
id and in order, with no partial set of outcomes — for every interleaving
of text and tool blocks in the responses. -/
theorem c2_requests_matched (reg : Registry) (jparse : String → Option JVal)
    (gateway : List Message → Except String ModelResponse)
    (conv : List Message) (msg : String) :
    List.Chain' (matchedOutcomes gateway)
      (ProteoAgent.chat reg jparse gateway conv msg).gatewayArgs := by
  rw [chat_eq]
  exact chatRounds_chain reg jparse gateway MAX_ROUNDS
    (conv ++ [⟨"user", MsgContent.text msg⟩]) (conv ++ [⟨"user", MsgContent.text msg⟩])

/-- C5: for a gateway whose every response requests at least one tool call
and never signals natural completion, `chat` performs exactly `MAX_ROUNDS`
(10) gateway calls — no eleventh call — and then emits the single `done`
event. -/
theorem c5_round_budget (reg : Registry) (jparse : String → Option JVal)
    (gateway : List Message → Except String ModelResponse)
    (H : ∀ ms, ∃ resp, gateway ms = Except.ok resp ∧
        resp.content.any isToolUseBlock = true ∧
        resp.stop_reason ≠ some "end_turn")
    (conv : List Message) (msg : String) :
    (ProteoAgent.chat reg jparse gateway conv msg).gatewayArgs.length = MAX_ROUNDS ∧
    countEnd (ProteoAgent.chat reg jparse gateway conv msg).events = 1 := by
  have hf := chatRounds_full reg jparse gateway H MAX_ROUNDS
    (conv ++ [⟨"user", MsgContent.text msg⟩]) (conv ++ [⟨"user", MsgContent.text msg⟩])
  have hc := chatRounds_countEnd reg jparse gateway MAX_ROUNDS
    (conv ++ [⟨"user", MsgContent.text msg⟩]) (conv ++ [⟨"user", MsgContent.text msg⟩])
  rw [chat_eq]
  dsimp only
  rw [if_pos hf.2]
  refine ⟨hf.1, ?_⟩
  simp only [countEnd, List.countP_append] at hc ⊢
  rw [hc]
  rfl

/-- Witness for C5: the always-tool-requesting gateway `gwLoop` drives
`chat` through exactly ten gateway calls and one `done` event. -/
theorem c5_witness :
    (ProteoAgent.chat [] noParse gwLoop [] "go").gatewayArgs.length = MAX_ROUNDS ∧
    countEnd (ProteoAgent.chat [] noParse gwLoop [] "go").events = 1 :=
  c5_round_budget [] noParse gwLoop
    (fun _ => ⟨⟨[RespBlock.toolUse "id1" "lookup" []], some "tool_use"⟩, rfl, rfl,
      by decide⟩) [] "go"

/-- C9: the `/reset` sentinel handled by `chat_ws` clears the session
history; doing it twice leaves the history empty both times and sends the
same acknowledgment record each time; neither invocation performs a Model
Gateway call. -/
theorem c9_reset_idempotent (reg : Registry) (jparse : String → Option JVal)
    (gateway : List Message → Except String ModelResponse) (conv : List Message) :
    (handleWs reg jparse gateway conv "/reset").conversation = [] ∧
    (handleWs reg jparse gateway
        (handleWs reg jparse gateway conv "/reset").conversation
        "/reset").conversation = [] ∧
    (handleWs reg jparse gateway conv "/reset").sent
      = [WsEvent.system "Conversation reset."] ∧
    (handleWs reg jparse gateway
        (handleWs reg jparse gateway conv "/reset").conversation "/reset").sent
      = (handleWs reg jparse gateway conv "/reset").sent ∧
    (handleWs reg jparse gateway conv "/reset").gatewayCalls = 0 ∧
    (handleWs reg jparse gateway
        (handleWs reg jparse gateway conv "/reset").conversation
        "/reset").gatewayCalls = 0 := by
  have h : ∀ c : List Message, handleWs reg jparse gateway c "/reset"
      = ⟨[], [WsEvent.system "Conversation reset."], 0⟩ := by
    intro c
    unfold handleWs
    rw [if_neg (by decide), if_pos (by decide)]
    rfl
  simp [h]

/-- C10: each chat turn appends to the persistent conversation the user
message and, exactly when the round loop breaks naturally, one assistant
entry holding a single plain string — the newline-join of the text parts of
the response delivered by the final gateway call; no tool-request or
tool-result blocks are ever stored there, and when the turn ends without a
natural break (round-budget exhaustion or a propagated gateway error) no
assistant entry is appended at all. -/
theorem c10_history_gains_plain_text (reg : Registry) (jparse : String → Option JVal)
    (gateway : List Message → Except String ModelResponse)
    (conv : List Message) (msg : String) :
    ((ProteoAgent.chat reg jparse gateway conv msg).naturalBreak = true →
      ∃ ms2 resp, gateway ms2 = Except.ok resp ∧
        (ProteoAgent.chat reg jparse gateway conv msg).conversation
          = conv ++ [⟨"user", MsgContent.text msg⟩,
              ⟨"assistant", MsgContent.text
                (joinNL (processBlocks reg jparse resp.content).text_parts)⟩]) ∧
    ((ProteoAgent.chat reg jparse gateway conv msg).naturalBreak = false →
      (ProteoAgent.chat reg jparse gateway conv msg).conversation
        = conv ++ [⟨"user", MsgContent.text msg⟩]) := by
  have hcv := chatRounds_conversation reg jparse gateway MAX_ROUNDS
    (conv ++ [⟨"user", MsgContent.text msg⟩]) (conv ++ [⟨"user", MsgContent.text msg⟩])
  rw [chat_eq]
  dsimp only
  constructor
  · intro h
    obtain ⟨ms2, resp, hgw, hs⟩ := hcv.1 h
    refine ⟨ms2, resp, hgw, ?_⟩
    rw [hs, List.append_assoc]
    rfl
  · intro h
    exact hcv.2 h

/-- Witness for C10: the text-only completion appends the user message and
one plain-string assistant entry. -/
theorem c10_witness :
    ∃ ms2 resp, gwText ms2 = Except.ok resp ∧
      (ProteoAgent.chat [] noParse gwText [] "hello").conversation
        = [] ++ [⟨"user", MsgContent.text "hello"⟩,
            ⟨"assistant", MsgContent.text
              (joinNL (processBlocks [] noParse resp.content).text_parts)⟩] :=
  (c10_history_gains_plain_text [] noParse gwText [] "hello").1 rfl
